import Mathlib

/-!
Verification of the voice-summary bot's capture-and-assembly pipeline.

The development shallowly embeds the relevant parts of the TypeScript
source (class `VoiceBot`): the WAV container serializer
(`createWavBuffer`), the per-session chunk buffer (`audioChunks` with
push / `Buffer.concat` / total-size fold), the per-speaker audio stream
handler (`handleAudioStream`), the retrying transcription wrapper
(`transcribeAudio`), the summarizer guard (`summarizeText`), and the
`join` / `leave` command handlers acting on the `audioQueues` map.

Byte buffers are `List Nat` (each entry one byte value); the registry
`Map` is an association list with JavaScript `Map` get/set/delete
semantics; external effects (API calls, filesystem, message sends,
stream endings) are passed in as explicit outcome parameters, and a
`try`/`catch` in the source becomes a `match` on the outcome.
-/

/-- Little-endian encoding of a 16-bit value, as `Buffer.writeUInt16LE`
lays it out (the source only writes in-range values; out-of-range values
are reduced mod 2^16, matching the layout for all in-range inputs). -/
def u16le (n : Nat) : List Nat :=
  [n % 256, n / 256 % 256]

/-- Little-endian encoding of a 32-bit value, as `Buffer.writeUInt32LE`
lays it out for in-range values. -/
def u32le (n : Nat) : List Nat :=
  [n % 256, n / 256 % 256, n / 65536 % 256, n / 16777216 % 256]

/-- ASCII bytes of the string "RIFF" written at offset 0. -/
def riffTag : List Nat := [82, 73, 70, 70]

/-- ASCII bytes of the string "WAVE" written at offset 8. -/
def waveTag : List Nat := [87, 65, 86, 69]

/-- ASCII bytes of the string "fmt " written at offset 12. -/
def fmtTag : List Nat := [102, 109, 116, 32]

/-- ASCII bytes of the string "data" written at offset 36. -/
def dataTag : List Nat := [100, 97, 116, 97]

/-- `const numChannels = 2` in `createWavBuffer`. -/
def numChannels : Nat := 2

/-- `const sampleRate = 48000` in `createWavBuffer`. -/
def sampleRate : Nat := 48000

/-- `const bitsPerSample = 16` in `createWavBuffer`. -/
def bitsPerSample : Nat := 16

/-- `const blockAlign = numChannels * (bitsPerSample / 8)`. -/
def blockAlign : Nat := numChannels * (bitsPerSample / 8)

/-- `const byteRate = sampleRate * blockAlign`. -/
def byteRate : Nat := sampleRate * blockAlign

/-- Embedding of `createWavBuffer(audioBuffer)`: the 44-byte WAV header
followed by the raw payload, with every field written at the offset and
width used by the source (`write` for the four ASCII tags,
`writeUInt32LE` / `writeUInt16LE` for the numeric fields). -/
def createWavBuffer (audioBuffer : List Nat) : List Nat :=
  riffTag ++ u32le (36 + audioBuffer.length) ++ waveTag ++ fmtTag ++
    u32le 16 ++ u16le 1 ++ u16le numChannels ++ u32le sampleRate ++
    u32le byteRate ++ u16le blockAlign ++ u16le bitsPerSample ++
    dataTag ++ u32le audioBuffer.length ++ audioBuffer

/-- Byte of a buffer at an index (out-of-range reads give 0, as
`Buffer` reads past the end never occur in the properties below). -/
def byteAt (l : List Nat) (i : Nat) : Nat := l.getD i 0

/-- Read back a little-endian 16-bit field at an offset. -/
def readU16LE (l : List Nat) (off : Nat) : Nat :=
  byteAt l off + 256 * byteAt l (off + 1)

/-- Read back a little-endian 32-bit field at an offset. -/
def readU32LE (l : List Nat) (off : Nat) : Nat :=
  byteAt l off + 256 * byteAt l (off + 1) + 65536 * byteAt l (off + 2) +
    16777216 * byteAt l (off + 3)

/-- `queue.audioChunks.push(audioData)`: append one decoded chunk at the
end of the per-session chunk list. -/
def pushChunk (chunks : List (List Nat)) (c : List Nat) : List (List Nat) :=
  chunks ++ [c]

/-- `Buffer.concat(queue.audioChunks)`: drain the buffer into one
contiguous block, in stored order. -/
def drainChunks (chunks : List (List Nat)) : List Nat :=
  chunks.flatten

/-- `queue.audioChunks.reduce((acc, buf) => acc + buf.length, 0)`: the
total size logged by `handleAudioStream`. -/
def totalSize (chunks : List (List Nat)) : Nat :=
  chunks.foldl (fun acc buf => acc + buf.length) 0

/-- `Map.prototype.get` on an association list. -/
def mapGet {α : Type} : List (String × α) → String → Option α
  | [], _ => none
  | (k', v) :: rest, k => if k' = k then some v else mapGet rest k

/-- `Map.prototype.set` on an association list: replace in place if the
key is present, else append a new entry. -/
def mapSet {α : Type} : List (String × α) → String → α → List (String × α)
  | [], k, v => [(k, v)]
  | (k', v') :: rest, k, v =>
    if k' = k then (k, v) :: rest else (k', v') :: mapSet rest k v

/-- `Map.prototype.delete` on an association list: remove the entry with
the given key, if any. -/
def mapDelete {α : Type} : List (String × α) → String → List (String × α)
  | [], _ => []
  | (k', v') :: rest, k => if k' = k then rest else (k', v') :: mapDelete rest k

/-- The `AudioQueue` interface of `types.ts`: the live voice connection
(abstracted to a numeric handle) and the accumulated decoded chunks. -/
structure AudioQueue where
  connection : Nat
  audioChunks : List (List Nat)
deriving DecidableEq

/-- `this.audioQueues`: the session registry, a `Map` keyed by guild id. -/
abbrev Registry := List (String × AudioQueue)

/-- How a per-speaker receive stream ends: normal end-of-stream (the
100 ms silence timeout) or a failure thrown during iteration
(connection loss / exception in the `for await` loop). -/
inductive StreamEnd where
  | silence
  | failure
deriving DecidableEq

/-- One item yielded by the receive stream: `some bytes` when
`chunk instanceof Buffer`, `none` for any other chunk. -/
abbrev StreamChunk := Option (List Nat)

/-- Body of the `for await` loop of `handleAudioStream`: non-`Buffer`
chunks are ignored; `decoder.decode(chunk)` either throws (the inner
`catch` logs and skips the frame) or yields decoded samples, which are
appended only when non-empty. -/
def processChunk (decode : List Nat → Except Unit (List Nat))
    (chunks : List (List Nat)) (c : StreamChunk) : List (List Nat) :=
  match c with
  | none => chunks
  | some bytes =>
    match decode bytes with
    | Except.error _ => chunks
    | Except.ok decoded =>
      if decoded.length > 0 then pushChunk chunks decoded else chunks

/-- Observable result of one `handleAudioStream` call: the registry with
the session's chunk list updated in place, whether a decoder was
instantiated, whether `decoder.delete()` ran, and how many stream items
the loop consumed. -/
structure StreamHandleResult where
  registry : Registry
  decoderCreated : Bool
  decoderReleased : Bool
  framesRead : Nat
deriving DecidableEq

/-- Embedding of `handleAudioStream(audioStream, guildId)`. The stream
is the list of chunks it yields before ending, plus how it ends. With
no registry entry the handler returns before creating the decoder. On a
normal end `decoder.delete()` runs after the loop; a stream failure
jumps to the `catch` block (which only logs), skipping the release. -/
def handleAudioStream (decode : List Nat → Except Unit (List Nat))
    (reg : Registry) (guildId : String) (stream : List StreamChunk)
    (ending : StreamEnd) : StreamHandleResult :=
  match mapGet reg guildId with
  | none => ⟨reg, false, false, 0⟩
  | some queue =>
    let newChunks := stream.foldl (processChunk decode) queue.audioChunks
    let reg' := mapSet reg guildId { queue with audioChunks := newChunks }
    match ending with
    | StreamEnd.silence => ⟨reg', true, true, stream.length⟩
    | StreamEnd.failure => ⟨reg', true, false, stream.length⟩

/-- `const maxRetries = 3` in `transcribeAudio`. -/
def maxRetries : Nat := 3

/-- The retry loop of `transcribeAudio`: attempt `api i` for
`i = 0, 1, ...` while fuel remains (fuel starts at `maxRetries`). On
success return the text (counting the call); on failure record the
exponential-backoff delay `2^i * 1000` ms when `i < maxRetries - 1` and
continue. Returns the successful text (if any), the number of API
calls, and the list of delays slept. -/
def transcribeLoop (api : Nat → Except Unit String) :
    Nat → Nat → Option String × Nat × List Nat
  | _, 0 => (none, 0, [])
  | i, fuel + 1 =>
    match api i with
    | Except.ok t => (some t, 1, [])
    | Except.error _ =>
      let r := transcribeLoop api (i + 1) fuel
      (r.1, r.2.1 + 1, (if i < maxRetries - 1 then [2 ^ i * 1000] else []) ++ r.2.2)

/-- Embedding of `transcribeAudio(filename)`. The filesystem `stat` is
an outcome parameter (`none` = it throws, landing in the outer `catch`;
`some n` = the file has size `n`); the per-attempt API call is the
`api` parameter. Returns the produced string together with the number
of API calls made and the backoff delays slept. -/
def transcribeAudio (statSize : Option Nat) (api : Nat → Except Unit String) :
    String × Nat × List Nat :=
  match statSize with
  | none => ("Error processing audio file", 0, [])
  | some size =>
    if size = 0 then ("No audio content recorded", 0, [])
    else
      match transcribeLoop api 0 maxRetries with
      | (some t, c, d) => (t, c, d)
      | (none, c, d) => ("Failed to transcribe audio after multiple attempts", c, d)

/-- JavaScript `String.prototype.split` with the single-character
separator `' '`, on the character list: splitting happens at every
space, and empty pieces are preserved (so the result always has one
more element than the string has spaces, matching `text.split(' ')`). -/
def splitSpaces : List Char → List (List Char)
  | [] => [[]]
  | c :: rest =>
    match splitSpaces rest with
    | [] => if c = ' ' then [[], []] else [[c]]
    | w :: ws => if c = ' ' then [] :: w :: ws else (c :: w) :: ws

/-- `text.split(' ')` of the source, as a function on `String`. -/
def jsSplitSpace (text : String) : List String :=
  (splitSpaces text.data).map fun w => String.mk w

/-- Embedding of `summarizeText(text)`: texts of fewer than 30
space-separated words are not sent to the API; otherwise the chat API
outcome is `ok (some content)` (the model reply), `ok none` (no
content in the response) or `error` (the call threw, caught and
replaced by the sentinel). -/
def summarizeText (text : String) (api : Except Unit (Option String)) : String :=
  if (jsSplitSpace text).length < 30 then "Text too short to summarize meaningfully"
  else
    match api with
    | Except.ok (some content) => content
    | Except.ok none => "Failed to generate summary"
    | Except.error _ => "Failed to generate summary"

/-- Outcomes of the external effects performed by `handleLeaveCommand`:
whether `connection.destroy()` returns normally, whether `fs.writeFile`
succeeds, the `fs.stat` result and per-attempt transcription API
outcomes seen by `transcribeAudio`, the chat-completion outcome seen by
`summarizeText`, whether `message.channel` exists with a `send` method,
and whether `channel.send` succeeds. `fs.unlink` has no parameter: its
failure is swallowed by `.catch(console.error)` and affects nothing. -/
structure LeaveOutcomes where
  destroyOk : Bool
  writeOk : Bool
  statSize : Option Nat
  api : Nat → Except Unit String
  sumApi : Except Unit (Option String)
  hasSendChannel : Bool
  sendOk : Bool

/-- Observable result of `handleLeaveCommand`: the registry afterwards,
the replies/messages posted in order, and the bytes written to the
recording file (when the write happened). -/
structure LeaveResult where
  registry : Registry
  messages : List String
  fileWritten : Option (List Nat)

/-- Embedding of `handleLeaveCommand(message)`. A `false` effect
outcome means that call threw: control transfers to the outer `catch`,
which replies "Failed to process recording." — note that on that path
`this.audioQueues.delete(guildId)` is never reached. The guard on the
transcription result compares against the literal
`'Failed to transcribe audio'` exactly as the source does. -/
def handleLeaveCommand (o : LeaveOutcomes) (guildId : Option String)
    (reg : Registry) : LeaveResult :=
  match guildId with
  | none => ⟨reg, [], none⟩
  | some gid =>
    match mapGet reg gid with
    | none => ⟨reg, ["Not currently in a voice channel."], none⟩
    | some queue =>
      if o.destroyOk then
        if queue.audioChunks.length > 0 then
          if o.writeOk then
            if (transcribeAudio o.statSize o.api).1 ≠ "" ∧
                (transcribeAudio o.statSize o.api).1 ≠ "Failed to transcribe audio" then
              if o.hasSendChannel then
                if o.sendOk then
                  ⟨mapDelete reg gid,
                    ["📝 **Summary of the conversation:**\n" ++
                        summarizeText (transcribeAudio o.statSize o.api).1 o.sumApi,
                      "Left voice channel."],
                    some (createWavBuffer (drainChunks queue.audioChunks))⟩
                else ⟨reg, ["Failed to process recording."],
                  some (createWavBuffer (drainChunks queue.audioChunks))⟩
              else ⟨mapDelete reg gid, ["Left voice channel."],
                some (createWavBuffer (drainChunks queue.audioChunks))⟩
            else
              if o.hasSendChannel then
                if o.sendOk then
                  ⟨mapDelete reg gid,
                    ["No clear speech detected in the recording.",
                      "Left voice channel."],
                    some (createWavBuffer (drainChunks queue.audioChunks))⟩
                else ⟨reg, ["Failed to process recording."],
                  some (createWavBuffer (drainChunks queue.audioChunks))⟩
              else ⟨mapDelete reg gid, ["Left voice channel."],
                some (createWavBuffer (drainChunks queue.audioChunks))⟩
          else ⟨reg, ["Failed to process recording."], none⟩
        else ⟨mapDelete reg gid, ["No audio was recorded.", "Left voice channel."], none⟩
      else ⟨reg, ["Failed to process recording."], none⟩

/-- The voice channel the requester is in: its id and its guild id, as
read off `message.member.voice.channel`. -/
structure VoiceChannel where
  id : String
  guildId : String

/-- Observable result of `handleJoinCommand`: the registry afterwards,
the replies posted, and whether a voice connection was opened. -/
structure JoinResult where
  registry : Registry
  replies : List String
  connectionOpened : Bool
deriving DecidableEq

/-- Embedding of `handleJoinCommand(message)`. `voiceChannel = none`
models a requester who is not in a resolvable voice channel (the
handler replies and returns before any mutation). `joinOk` is the
outcome of `joinVoiceChannel` (a throw lands in the `catch`); on
success the registry entry with a fresh connection and empty chunk
list is stored under the guild id. -/
def handleJoinCommand (voiceChannel : Option VoiceChannel) (joinOk : Bool)
    (newConn : Nat) (reg : Registry) : JoinResult :=
  match voiceChannel with
  | none => ⟨reg, ["You need to be in a voice channel first!"], false⟩
  | some ch =>
    if joinOk then
      ⟨mapSet reg ch.guildId ⟨newConn, []⟩,
        ["Joined voice channel and started recording."], true⟩
    else ⟨reg, ["Failed to join voice channel."], false⟩

/-- One registry-touching event of the bot: a `join` command, a `leave`
command, or one per-speaker audio stream being handled, each carrying
the outcomes of its external effects. -/
inductive BotCommand where
  | join (voiceChannel : Option VoiceChannel) (joinOk : Bool) (newConn : Nat)
  | leave (guildId : Option String) (outcomes : LeaveOutcomes)
  | audioStream (decode : List Nat → Except Unit (List Nat)) (guildId : String)
      (stream : List StreamChunk) (ending : StreamEnd)

/-- Effect of one event on the session registry. -/
def execCommand (reg : Registry) : BotCommand → Registry
  | BotCommand.join vc ok conn => (handleJoinCommand vc ok conn reg).registry
  | BotCommand.leave gid o => (handleLeaveCommand o gid reg).registry
  | BotCommand.audioStream decode gid stream ending =>
      (handleAudioStream decode reg gid stream ending).registry

/-- Registry reached from the empty initial registry after a sequence
of events. -/
def execCommands (cmds : List BotCommand) : Registry :=
  cmds.foldl execCommand []

/-- A transcription API call that fails on every attempt. -/
def failApi : Nat → Except Unit String := fun _ => Except.error ()

/-- A decoder that succeeds on every frame, returning its bytes. -/
def okDecode : List Nat → Except Unit (List Nat) := fun b => Except.ok b

/-- A decoder that throws on the frame `[0]` and decodes any other
frame to itself. -/
def pickyDecode : List Nat → Except Unit (List Nat) :=
  fun b => if b = [0] then Except.error () else Except.ok b

/-- A session with one recorded chunk, for concrete evaluations. -/
def sampleQueue : AudioQueue := ⟨1, [[0, 1, 2, 3]]⟩

/-- A registry holding `sampleQueue` under key "g". -/
def sampleReg : Registry := [("g", sampleQueue)]

/-- Leave-command outcomes where `fs.writeFile` throws and everything
else succeeds. -/
def writeFailOutcomes : LeaveOutcomes :=
  ⟨true, false, some 48, failApi, Except.error (), true, true⟩

/-- Leave-command outcomes where every transcription attempt fails but
all other effects succeed. -/
def retryFailOutcomes : LeaveOutcomes :=
  ⟨true, true, some 48, failApi, Except.error (), true, true⟩

/-- Byte 4 of the serializer output. -/
theorem wavByte4 (p : List Nat) :
    byteAt (createWavBuffer p) 4 = (36 + p.length) % 256 := rfl

/-- Byte 5 of the serializer output. -/
theorem wavByte5 (p : List Nat) :
    byteAt (createWavBuffer p) 5 = (36 + p.length) / 256 % 256 := rfl

/-- Byte 6 of the serializer output. -/
theorem wavByte6 (p : List Nat) :
    byteAt (createWavBuffer p) 6 = (36 + p.length) / 65536 % 256 := rfl

/-- Byte 7 of the serializer output. -/
theorem wavByte7 (p : List Nat) :
    byteAt (createWavBuffer p) 7 = (36 + p.length) / 16777216 % 256 := rfl

/-- Byte 20 of the serializer output. -/
theorem wavByte20 (p : List Nat) : byteAt (createWavBuffer p) 20 = 1 := rfl

/-- Byte 21 of the serializer output. -/
theorem wavByte21 (p : List Nat) : byteAt (createWavBuffer p) 21 = 0 := rfl

/-- Byte 22 of the serializer output. -/
theorem wavByte22 (p : List Nat) : byteAt (createWavBuffer p) 22 = 2 := rfl

/-- Byte 23 of the serializer output. -/
theorem wavByte23 (p : List Nat) : byteAt (createWavBuffer p) 23 = 0 := rfl

/-- Byte 24 of the serializer output. -/
theorem wavByte24 (p : List Nat) : byteAt (createWavBuffer p) 24 = 128 := rfl

/-- Byte 25 of the serializer output. -/
theorem wavByte25 (p : List Nat) : byteAt (createWavBuffer p) 25 = 187 := rfl

/-- Byte 26 of the serializer output. -/
theorem wavByte26 (p : List Nat) : byteAt (createWavBuffer p) 26 = 0 := rfl

/-- Byte 27 of the serializer output. -/
theorem wavByte27 (p : List Nat) : byteAt (createWavBuffer p) 27 = 0 := rfl

/-- Byte 28 of the serializer output. -/
theorem wavByte28 (p : List Nat) : byteAt (createWavBuffer p) 28 = 0 := rfl

/-- Byte 29 of the serializer output. -/
theorem wavByte29 (p : List Nat) : byteAt (createWavBuffer p) 29 = 238 := rfl

/-- Byte 30 of the serializer output. -/
theorem wavByte30 (p : List Nat) : byteAt (createWavBuffer p) 30 = 2 := rfl

/-- Byte 31 of the serializer output. -/
theorem wavByte31 (p : List Nat) : byteAt (createWavBuffer p) 31 = 0 := rfl

/-- Byte 32 of the serializer output. -/
theorem wavByte32 (p : List Nat) : byteAt (createWavBuffer p) 32 = 4 := rfl

/-- Byte 33 of the serializer output. -/
theorem wavByte33 (p : List Nat) : byteAt (createWavBuffer p) 33 = 0 := rfl

/-- Byte 34 of the serializer output. -/
theorem wavByte34 (p : List Nat) : byteAt (createWavBuffer p) 34 = 16 := rfl

/-- Byte 35 of the serializer output. -/
theorem wavByte35 (p : List Nat) : byteAt (createWavBuffer p) 35 = 0 := rfl

/-- Byte 40 of the serializer output. -/
theorem wavByte40 (p : List Nat) :
    byteAt (createWavBuffer p) 40 = p.length % 256 := rfl

/-- Byte 41 of the serializer output. -/
theorem wavByte41 (p : List Nat) :
    byteAt (createWavBuffer p) 41 = p.length / 256 % 256 := rfl

/-- Byte 42 of the serializer output. -/
theorem wavByte42 (p : List Nat) :
    byteAt (createWavBuffer p) 42 = p.length / 65536 % 256 := rfl

/-- Byte 43 of the serializer output. -/
theorem wavByte43 (p : List Nat) :
    byteAt (createWavBuffer p) 43 = p.length / 16777216 % 256 := rfl

/-- The chunk-size field at offset 4 holds the little-endian bytes of
`36 + payload length`. -/
theorem wav_riffSize (p : List Nat) :
    readU32LE (createWavBuffer p) 4 =
      (36 + p.length) % 256 + 256 * ((36 + p.length) / 256 % 256) +
        65536 * ((36 + p.length) / 65536 % 256) +
        16777216 * ((36 + p.length) / 16777216 % 256) := by
  simp [readU32LE, wavByte4, wavByte5, wavByte6, wavByte7]

/-- The data-size field at offset 40 holds the little-endian bytes of
the payload length. -/
theorem wav_dataSize (p : List Nat) :
    readU32LE (createWavBuffer p) 40 =
      p.length % 256 + 256 * (p.length / 256 % 256) +
        65536 * (p.length / 65536 % 256) +
        16777216 * (p.length / 16777216 % 256) := by
  simp [readU32LE, wavByte40, wavByte41, wavByte42, wavByte43]

/-- The serializer output is 44 header bytes plus the payload. -/
theorem wav_length (p : List Nat) : (createWavBuffer p).length = 44 + p.length := by
  simp only [createWavBuffer, riffTag, waveTag, fmtTag, dataTag, u16le, u32le,
    List.length_append, List.length_cons, List.length_nil]

/-- C4: for every payload whose size field fits the uint32 range that
`Buffer.writeUInt32LE` accepts, `createWavBuffer` yields a 44-byte
header followed by the payload, with the little-endian size field at
offset 4 equal to 36 + payload length, the size field at offset 40
equal to the payload length, format tag 1 (PCM) at offset 20, channel
count 2 at offset 22, sample rate 48000 at offset 24, bits per sample
16 at offset 34, block align 4 = channels times bytes-per-sample at
offset 32, and byte rate 192000 = sample rate times block align at
offset 28. -/
theorem createWavBuffer_spec (p : List Nat) (h : 36 + p.length < 4294967296) :
    (createWavBuffer p).length = 44 + p.length ∧
    List.drop 44 (createWavBuffer p) = p ∧
    readU32LE (createWavBuffer p) 4 = 36 + p.length ∧
    readU32LE (createWavBuffer p) 40 = p.length ∧
    readU16LE (createWavBuffer p) 20 = 1 ∧
    readU16LE (createWavBuffer p) 22 = 2 ∧
    readU32LE (createWavBuffer p) 24 = 48000 ∧
    readU16LE (createWavBuffer p) 34 = 16 ∧
    readU16LE (createWavBuffer p) 32 = 4 ∧
    readU32LE (createWavBuffer p) 28 = 192000 ∧
    blockAlign = numChannels * (bitsPerSample / 8) ∧ blockAlign = 4 ∧
    byteRate = sampleRate * blockAlign ∧ byteRate = 192000 :=
  ⟨wav_length p, rfl,
    by rw [wav_riffSize]; omega,
    by rw [wav_dataSize]; omega,
    by simp [readU16LE, wavByte20, wavByte21],
    by simp [readU16LE, wavByte22, wavByte23],
    by
      show byteAt (createWavBuffer p) 24 + 256 * byteAt (createWavBuffer p) 25 +
        65536 * byteAt (createWavBuffer p) 26 +
        16777216 * byteAt (createWavBuffer p) 27 = 48000
      rw [wavByte24, wavByte25, wavByte26, wavByte27],
    by simp [readU16LE, wavByte34, wavByte35],
    by simp [readU16LE, wavByte32, wavByte33],
    by
      show byteAt (createWavBuffer p) 28 + 256 * byteAt (createWavBuffer p) 29 +
        65536 * byteAt (createWavBuffer p) 30 +
        16777216 * byteAt (createWavBuffer p) 31 = 192000
      rw [wavByte28, wavByte29, wavByte30, wavByte31],
    rfl, rfl, rfl, rfl⟩

/-- Witness for C4 at the empty payload. -/
theorem createWavBuffer_spec_witness :
    36 + ([] : List Nat).length < 4294967296 ∧
    ((createWavBuffer ([] : List Nat)).length = 44 + ([] : List Nat).length ∧
    List.drop 44 (createWavBuffer ([] : List Nat)) = ([] : List Nat) ∧
    readU32LE (createWavBuffer ([] : List Nat)) 4 = 36 + ([] : List Nat).length ∧
    readU32LE (createWavBuffer ([] : List Nat)) 40 = ([] : List Nat).length ∧
    readU16LE (createWavBuffer ([] : List Nat)) 20 = 1 ∧
    readU16LE (createWavBuffer ([] : List Nat)) 22 = 2 ∧
    readU32LE (createWavBuffer ([] : List Nat)) 24 = 48000 ∧
    readU16LE (createWavBuffer ([] : List Nat)) 34 = 16 ∧
    readU16LE (createWavBuffer ([] : List Nat)) 32 = 4 ∧
    readU32LE (createWavBuffer ([] : List Nat)) 28 = 192000 ∧
    blockAlign = numChannels * (bitsPerSample / 8) ∧ blockAlign = 4 ∧
    byteRate = sampleRate * blockAlign ∧ byteRate = 192000) :=
  ⟨by decide, createWavBuffer_spec [] (by decide)⟩

/-- C5: the serializer is a plain function of the payload (purity and
determinism are by construction in this embedding: `createWavBuffer`
is a total Lean function of its argument alone), and parsing its
header back recovers channel count 2, sample rate 48000, bits per
sample 16, and the exact payload length, for any payload within the
uint32 size range, including the empty payload. -/
theorem serialize_header_roundtrip (p : List Nat) (h : p.length < 4294967296) :
    createWavBuffer p = createWavBuffer p ∧
    readU16LE (createWavBuffer p) 22 = 2 ∧
    readU32LE (createWavBuffer p) 24 = 48000 ∧
    readU16LE (createWavBuffer p) 34 = 16 ∧
    readU32LE (createWavBuffer p) 40 = p.length :=
  ⟨rfl,
    by simp [readU16LE, wavByte22, wavByte23],
    by
      show byteAt (createWavBuffer p) 24 + 256 * byteAt (createWavBuffer p) 25 +
        65536 * byteAt (createWavBuffer p) 26 +
        16777216 * byteAt (createWavBuffer p) 27 = 48000
      rw [wavByte24, wavByte25, wavByte26, wavByte27],
    by simp [readU16LE, wavByte34, wavByte35],
    by rw [wav_dataSize]; omega⟩

/-- Witness for C5 at the empty payload. -/
theorem serialize_header_roundtrip_witness :
    ([] : List Nat).length < 4294967296 ∧
    (createWavBuffer ([] : List Nat) = createWavBuffer ([] : List Nat) ∧
    readU16LE (createWavBuffer ([] : List Nat)) 22 = 2 ∧
    readU32LE (createWavBuffer ([] : List Nat)) 24 = 48000 ∧
    readU16LE (createWavBuffer ([] : List Nat)) 34 = 16 ∧
    readU32LE (createWavBuffer ([] : List Nat)) 40 = ([] : List Nat).length) :=
  ⟨by decide, serialize_header_roundtrip [] (by decide)⟩

/-- Appending chunks one by one builds exactly the chunk list. -/
theorem foldl_pushChunk (cs : List (List Nat)) :
    ∀ acc, List.foldl pushChunk acc cs = acc ++ cs := by
  induction cs with
  | nil => intro acc; simp
  | cons c cs ih => intro acc; simp [List.foldl_cons, pushChunk, ih]

/-- The running fold of `totalSize` equals its start plus the sum of
chunk lengths. -/
theorem totalSize_foldl (cs : List (List Nat)) :
    ∀ a : Nat, List.foldl (fun acc buf => acc + buf.length) a cs =
      a + (cs.map List.length).sum := by
  induction cs with
  | nil => intro a; simp
  | cons c cs ih =>
    intro a
    simp only [List.foldl_cons, List.map_cons, List.sum_cons, ih]
    omega

/-- C6: for any sequence of chunks appended to a session buffer,
draining yields their concatenation in append order (no reordering,
dropping, or deduplication), and at every point before the drain (after
any prefix of the appends) the total size equals the sum of the lengths
of the chunks appended so far. -/
theorem sessionBuffer_drain_totalSize (cs : List (List Nat)) :
    drainChunks (List.foldl pushChunk [] cs) = cs.flatten ∧
    ∀ n, totalSize (List.foldl pushChunk [] (cs.take n)) =
      ((cs.take n).map List.length).sum := by
  constructor
  · rw [foldl_pushChunk]; simp [drainChunks]
  · intro n; rw [foldl_pushChunk]; simp [totalSize, totalSize_foldl]


/-- Looking up the key just set returns the new value. -/
theorem mapGet_mapSet_self {α : Type} (m : List (String × α)) (k : String) (v : α) :
    mapGet (mapSet m k v) k = some v := by
  induction m with
  | nil => simp [mapSet, mapGet]
  | cons p rest ih =>
    obtain ⟨k', v'⟩ := p
    by_cases h : k' = k
    · simp [mapSet, h, mapGet]
    · simp [mapSet, h, mapGet, ih]

/-- Setting one key leaves lookups of other keys unchanged. -/
theorem mapGet_mapSet_ne {α : Type} (m : List (String × α)) (k k' : String) (v : α)
    (h : k ≠ k') : mapGet (mapSet m k v) k' = mapGet m k' := by
  induction m with
  | nil => simp [mapSet, mapGet, h]
  | cons pr rest ih =>
    obtain ⟨a, b⟩ := pr
    by_cases ha : a = k
    · subst ha
      simp [mapSet, mapGet, h]
    · have e : mapSet ((a, b) :: rest) k v = (a, b) :: mapSet rest k v := by
        simp [mapSet, ha]
      rw [e]
      by_cases hb : a = k'
      · subst hb
        simp [mapGet]
      · simp [mapGet, hb, ih]

/-- Every key of `mapSet m k v` is `k` or a key of `m`. -/
theorem mem_keys_mapSet {α : Type} (m : List (String × α)) (k : String) (v : α)
    (a : String) (h : a ∈ (mapSet m k v).map Prod.fst) :
    a = k ∨ a ∈ m.map Prod.fst := by
  induction m with
  | nil =>
    simp [mapSet] at h
    exact Or.inl h
  | cons pr rest ih =>
    obtain ⟨k', v'⟩ := pr
    by_cases hk : k' = k
    · subst hk
      have e : mapSet ((k', v') :: rest) k' v = (k', v) :: rest := by
        simp [mapSet]
      rw [e] at h
      simp only [List.map_cons, List.mem_cons] at h
      rcases h with h1 | h1
      · exact Or.inl h1
      · exact Or.inr (List.mem_cons_of_mem _ h1)
    · have e : mapSet ((k', v') :: rest) k v = (k', v') :: mapSet rest k v := by
        simp [mapSet, hk]
      rw [e] at h
      simp only [List.map_cons, List.mem_cons] at h
      rcases h with h1 | h1
      · exact Or.inr (by rw [h1]; exact List.mem_cons_self _ _)
      · rcases ih h1 with h2 | h2
        · exact Or.inl h2
        · exact Or.inr (List.mem_cons_of_mem _ h2)

/-- `mapSet` preserves distinctness of the keys. -/
theorem nodup_keys_mapSet {α : Type} (m : List (String × α)) (k : String) (v : α)
    (h : (m.map Prod.fst).Nodup) : ((mapSet m k v).map Prod.fst).Nodup := by
  induction m with
  | nil => simp [mapSet]
  | cons pr rest ih =>
    obtain ⟨k', v'⟩ := pr
    simp only [List.map_cons, List.nodup_cons] at h
    obtain ⟨hk', hrest⟩ := h
    by_cases hk : k' = k
    · subst hk
      have e : mapSet ((k', v') :: rest) k' v = (k', v) :: rest := by
        simp [mapSet]
      rw [e]
      simp only [List.map_cons, List.nodup_cons]
      exact ⟨hk', hrest⟩
    · have e : mapSet ((k', v') :: rest) k v = (k', v') :: mapSet rest k v := by
        simp [mapSet, hk]
      rw [e]
      simp only [List.map_cons, List.nodup_cons]
      refine ⟨?_, ih hrest⟩
      intro hmem
      rcases mem_keys_mapSet rest k v k' hmem with h1 | h1
      · exact hk h1
      · exact hk' h1

/-- Every key of `mapDelete m k` is a key of `m`. -/
theorem mem_keys_mapDelete {α : Type} (m : List (String × α)) (k : String)
    (a : String) (h : a ∈ (mapDelete m k).map Prod.fst) : a ∈ m.map Prod.fst := by
  induction m with
  | nil => simp [mapDelete] at h
  | cons pr rest ih =>
    obtain ⟨k', v'⟩ := pr
    by_cases hk : k' = k
    · have e : mapDelete ((k', v') :: rest) k = rest := by
        simp [mapDelete, hk]
      rw [e] at h
      exact List.mem_cons_of_mem _ h
    · have e : mapDelete ((k', v') :: rest) k = (k', v') :: mapDelete rest k := by
        simp [mapDelete, hk]
      rw [e] at h
      simp only [List.map_cons, List.mem_cons] at h
      rcases h with h1 | h1
      · exact (by rw [h1]; exact List.mem_cons_self _ _)
      · exact List.mem_cons_of_mem _ (ih h1)

/-- `mapDelete` preserves distinctness of the keys. -/
theorem nodup_keys_mapDelete {α : Type} (m : List (String × α)) (k : String)
    (h : (m.map Prod.fst).Nodup) : ((mapDelete m k).map Prod.fst).Nodup := by
  induction m with
  | nil => simp [mapDelete]
  | cons pr rest ih =>
    obtain ⟨k', v'⟩ := pr
    simp only [List.map_cons, List.nodup_cons] at h
    obtain ⟨hk', hrest⟩ := h
    by_cases hk : k' = k
    · have e : mapDelete ((k', v') :: rest) k = rest := by
        simp [mapDelete, hk]
      rw [e]
      exact hrest
    · have e : mapDelete ((k', v') :: rest) k = (k', v') :: mapDelete rest k := by
        simp [mapDelete, hk]
      rw [e]
      simp only [List.map_cons, List.nodup_cons]
      refine ⟨?_, ih hrest⟩
      intro hmem
      exact hk' (mem_keys_mapDelete rest k k' hmem)

/-- C7: a frame whose decode throws is caught at the decode call site
and skipped with no append, it does not abort the subscription, and a
subsequent valid frame in the same subscription is decoded and appended
normally (the loop continues over the remaining stream). Note that
`processChunk` is a total function: the decode failure cannot raise
past it by construction of the embedded `catch`. -/
theorem decode_error_isolated (decode : List Nat → Except Unit (List Nat))
    (chunks : List (List Nat)) (bad good d : List Nat) (rest : List StreamChunk)
    (hbad : decode bad = Except.error ()) (hgood : decode good = Except.ok d)
    (hd : d.length > 0) :
    processChunk decode chunks (some bad) = chunks ∧
    processChunk decode chunks (some good) = pushChunk chunks d ∧
    List.foldl (processChunk decode) chunks (some bad :: some good :: rest) =
      List.foldl (processChunk decode) (pushChunk chunks d) rest := by
  have h1 : processChunk decode chunks (some bad) = chunks := by
    simp [processChunk, hbad]
  have h2 : processChunk decode chunks (some good) = pushChunk chunks d := by
    simp [processChunk, hgood, hd]
  refine ⟨h1, h2, ?_⟩
  rw [List.foldl_cons, List.foldl_cons, h1, h2]

/-- Witness for C7: the decoder that rejects the frame `[0]` skips it
and still decodes the following valid frame `[5]`. -/
theorem decode_error_isolated_witness :
    pickyDecode [0] = Except.error () ∧ pickyDecode [5] = Except.ok [5] ∧
    ([5] : List Nat).length > 0 ∧
    (processChunk pickyDecode [] (some [0]) = [] ∧
     processChunk pickyDecode [] (some [5]) = pushChunk [] [5] ∧
     List.foldl (processChunk pickyDecode) [] (some [0] :: some [5] :: []) =
       List.foldl (processChunk pickyDecode) (pushChunk [] [5]) []) :=
  ⟨rfl, rfl, by decide,
    decode_error_isolated pickyDecode [] [0] [5] [5] [] rfl rfl (by decide)⟩

/-- C8: a join request whose requester is not in a resolvable voice
channel replies with the precondition error and mutates nothing: the
registry is returned unchanged (no entry created) and no voice
connection is opened. -/
theorem join_no_channel_no_mutation (joinOk : Bool) (newConn : Nat) (reg : Registry) :
    handleJoinCommand none joinOk newConn reg =
      ⟨reg, ["You need to be in a voice channel first!"], false⟩ := rfl

/-- C10: handling a per-speaker audio stream for a guild key with no
registry entry returns immediately without effect: the registry is
unchanged, no decoder is created or released, and no stream item is
read. -/
theorem audioStream_no_session_no_effect (decode : List Nat → Except Unit (List Nat))
    (reg : Registry) (gid : String) (stream : List StreamChunk) (ending : StreamEnd)
    (h : mapGet reg gid = none) :
    handleAudioStream decode reg gid stream ending = ⟨reg, false, false, 0⟩ := by
  unfold handleAudioStream
  rw [h]

/-- Witness for C10 on the empty registry. -/
theorem audioStream_no_session_no_effect_witness :
    mapGet ([] : Registry) "g" = none ∧
    handleAudioStream okDecode [] "g" [some [1]] StreamEnd.silence =
      ⟨[], false, false, 0⟩ :=
  ⟨rfl, audioStream_no_session_no_effect okDecode [] "g" [some [1]]
    StreamEnd.silence rfl⟩

/-- C3 counterexample: a subscription whose frame stream ends with a
stream-level failure instantiates a decoder but the `catch` block is
reached before `decoder.delete()`, so the decoder is not released —
refuting the claim that the decoder is released on every stream end. -/
theorem stream_failure_decoder_not_released :
    (handleAudioStream okDecode sampleReg "g" [] StreamEnd.failure).decoderCreated = true ∧
    (handleAudioStream okDecode sampleReg "g" [] StreamEnd.failure).decoderReleased = false :=
  ⟨rfl, rfl⟩

/-- C3 amended: for every per-speaker subscription on a registered key,
the handler creates a decoder; when the stream ends by silence timeout
the decoder is released, while a stream-level failure is caught without
releasing it; in both cases nothing propagates: other keys of the
registry are untouched and the session entry itself survives with its
buffer updated by the processed frames. -/
theorem handleAudioStream_end_behavior (decode : List Nat → Except Unit (List Nat))
    (reg : Registry) (gid : String) (stream : List StreamChunk) (ending : StreamEnd)
    (q : AudioQueue) (h : mapGet reg gid = some q) :
    (handleAudioStream decode reg gid stream ending).decoderCreated = true ∧
    (ending = StreamEnd.silence →
      (handleAudioStream decode reg gid stream ending).decoderReleased = true) ∧
    (ending = StreamEnd.failure →
      (handleAudioStream decode reg gid stream ending).decoderReleased = false) ∧
    (∀ k, k ≠ gid →
      mapGet (handleAudioStream decode reg gid stream ending).registry k = mapGet reg k) ∧
    mapGet (handleAudioStream decode reg gid stream ending).registry gid =
      some { q with audioChunks := stream.foldl (processChunk decode) q.audioChunks } := by
  cases ending with
  | silence =>
    have e : handleAudioStream decode reg gid stream StreamEnd.silence =
        ⟨mapSet reg gid { q with audioChunks := stream.foldl (processChunk decode) q.audioChunks },
          true, true, stream.length⟩ := by
      unfold handleAudioStream
      rw [h]
    rw [e]
    refine ⟨rfl, fun _ => rfl, fun hc => ?_, fun k hk => ?_, ?_⟩
    · cases hc
    · exact mapGet_mapSet_ne reg gid k _ (Ne.symm hk)
    · exact mapGet_mapSet_self reg gid _
  | failure =>
    have e : handleAudioStream decode reg gid stream StreamEnd.failure =
        ⟨mapSet reg gid { q with audioChunks := stream.foldl (processChunk decode) q.audioChunks },
          true, false, stream.length⟩ := by
      unfold handleAudioStream
      rw [h]
    rw [e]
    refine ⟨rfl, fun hc => ?_, fun _ => rfl, fun k hk => ?_, ?_⟩
    · cases hc
    · exact mapGet_mapSet_ne reg gid k _ (Ne.symm hk)
    · exact mapGet_mapSet_self reg gid _

/-- Witness for the amended C3 on a one-entry registry with a
silence-terminated empty stream. -/
theorem handleAudioStream_end_behavior_witness :
    mapGet sampleReg "g" = some sampleQueue ∧
    ((handleAudioStream okDecode sampleReg "g" [] StreamEnd.silence).decoderCreated = true ∧
    (StreamEnd.silence = StreamEnd.silence →
      (handleAudioStream okDecode sampleReg "g" [] StreamEnd.silence).decoderReleased = true) ∧
    (StreamEnd.silence = StreamEnd.failure →
      (handleAudioStream okDecode sampleReg "g" [] StreamEnd.silence).decoderReleased = false) ∧
    (∀ k, k ≠ "g" →
      mapGet (handleAudioStream okDecode sampleReg "g" [] StreamEnd.silence).registry k =
        mapGet sampleReg k) ∧
    mapGet (handleAudioStream okDecode sampleReg "g" [] StreamEnd.silence).registry "g" =
      some { sampleQueue with
        audioChunks := List.foldl (processChunk okDecode) sampleQueue.audioChunks [] }) :=
  ⟨rfl, handleAudioStream_end_behavior okDecode sampleReg "g" [] StreamEnd.silence
    sampleQueue rfl⟩

/-- A join command either leaves the registry unchanged or stores one
entry under the requester's guild key. -/
theorem handleJoin_registry_cases (vc : Option VoiceChannel) (ok : Bool) (conn : Nat)
    (reg : Registry) :
    (handleJoinCommand vc ok conn reg).registry = reg ∨
      ∃ g q, (handleJoinCommand vc ok conn reg).registry = mapSet reg g q := by
  cases vc with
  | none => exact Or.inl rfl
  | some ch =>
    cases ok with
    | false => exact Or.inl rfl
    | true => exact Or.inr ⟨ch.guildId, ⟨conn, []⟩, rfl⟩

/-- A leave command either leaves the registry unchanged or deletes one
key from it. -/
theorem handleLeave_registry_cases (o : LeaveOutcomes) (gid : Option String)
    (reg : Registry) :
    (handleLeaveCommand o gid reg).registry = reg ∨
      ∃ g, (handleLeaveCommand o gid reg).registry = mapDelete reg g := by
  cases gid with
  | none => exact Or.inl rfl
  | some g =>
    simp only [handleLeaveCommand]
    cases hq : mapGet reg g with
    | none => exact Or.inl rfl
    | some queue =>
      dsimp only
      repeat' split
      all_goals first
        | exact Or.inl rfl
        | exact Or.inr ⟨g, rfl⟩

/-- An audio-stream event either leaves the registry unchanged or
stores an updated entry under its guild key. -/
theorem handleAudioStream_registry_cases (decode : List Nat → Except Unit (List Nat))
    (reg : Registry) (gid : String) (stream : List StreamChunk) (ending : StreamEnd) :
    (handleAudioStream decode reg gid stream ending).registry = reg ∨
      ∃ q, (handleAudioStream decode reg gid stream ending).registry = mapSet reg gid q := by
  unfold handleAudioStream
  cases hq : mapGet reg gid with
  | none => exact Or.inl rfl
  | some queue =>
    cases ending with
    | silence => exact Or.inr ⟨_, rfl⟩
    | failure => exact Or.inr ⟨_, rfl⟩

/-- One event preserves distinctness of the registry keys. -/
theorem nodup_keys_execCommand (reg : Registry) (cmd : BotCommand)
    (h : (reg.map Prod.fst).Nodup) : ((execCommand reg cmd).map Prod.fst).Nodup := by
  cases cmd with
  | join vc ok conn =>
    rcases handleJoin_registry_cases vc ok conn reg with he | ⟨g, q, he⟩
    · have e : execCommand reg (BotCommand.join vc ok conn) =
          (handleJoinCommand vc ok conn reg).registry := rfl
      rw [e, he]; exact h
    · have e : execCommand reg (BotCommand.join vc ok conn) =
          (handleJoinCommand vc ok conn reg).registry := rfl
      rw [e, he]; exact nodup_keys_mapSet reg g q h
  | leave gid o =>
    rcases handleLeave_registry_cases o gid reg with he | ⟨g, he⟩
    · have e : execCommand reg (BotCommand.leave gid o) =
          (handleLeaveCommand o gid reg).registry := rfl
      rw [e, he]; exact h
    · have e : execCommand reg (BotCommand.leave gid o) =
          (handleLeaveCommand o gid reg).registry := rfl
      rw [e, he]; exact nodup_keys_mapDelete reg g h
  | audioStream decode gid stream ending =>
    rcases handleAudioStream_registry_cases decode reg gid stream ending with he | ⟨q, he⟩
    · have e : execCommand reg (BotCommand.audioStream decode gid stream ending) =
          (handleAudioStream decode reg gid stream ending).registry := rfl
      rw [e, he]; exact h
    · have e : execCommand reg (BotCommand.audioStream decode gid stream ending) =
          (handleAudioStream decode reg gid stream ending).registry := rfl
      rw [e, he]; exact nodup_keys_mapSet reg gid q h

/-- Distinct keys are preserved along any event sequence. -/
theorem nodup_keys_foldl (cmds : List BotCommand) :
    ∀ reg : Registry, (reg.map Prod.fst).Nodup →
      ((cmds.foldl execCommand reg).map Prod.fst).Nodup := by
  induction cmds with
  | nil => intro reg h; simpa using h
  | cons c cs ih =>
    intro reg h
    rw [List.foldl_cons]
    exact ih _ (nodup_keys_execCommand reg c h)

/-- C9: for every sequence of bot events starting from the empty
registry, the session registry holds at most one entry per key: its
keys are pairwise distinct, so a second join for the same key without
an intervening leave overwrites the entry rather than creating a second
one. -/
theorem registry_at_most_one_entry_per_key (cmds : List BotCommand) (k : String) :
    ((execCommands cmds).map Prod.fst).Nodup ∧
    ((execCommands cmds).map Prod.fst).count k ≤ 1 := by
  have h : ((execCommands cmds).map Prod.fst).Nodup :=
    nodup_keys_foldl cmds [] (by simp)
  exact ⟨h, List.nodup_iff_count_le_one.mp h k⟩

/-- C1: evaluation of `handleLeaveCommand` at a failing downstream
effect. With an active session for key "g" holding one recorded chunk,
when `fs.writeFile` throws, control reaches the outer `catch` before
`this.audioQueues.delete(guildId)` is executed: the handler replies
"Failed to process recording." and the registry still contains the
entry for "g" (whose connection was already destroyed), contradicting
the claim that the entry is removed even when the downstream
serialize/transcribe/summarize/cleanup sequence throws. -/
theorem leave_downstream_failure_retains_session :
    (handleLeaveCommand writeFailOutcomes (some "g") sampleReg).registry = sampleReg ∧
    mapGet (handleLeaveCommand writeFailOutcomes (some "g") sampleReg).registry "g" =
      some sampleQueue ∧
    (handleLeaveCommand writeFailOutcomes (some "g") sampleReg).messages =
      ["Failed to process recording."] :=
  ⟨rfl, rfl, rfl⟩

/-- C2: evaluation of the retry-exhaustion path. When every
transcription attempt fails, `transcribeAudio` makes exactly 3 API
calls with backoff delays of 1000 ms then 2000 ms and returns the
sentinel "Failed to transcribe audio after multiple attempts"; but
`handleLeaveCommand` compares the result against the different literal
"Failed to transcribe audio", so the sentinel passes the guard: the
summarization step runs on the sentinel text (7 words, below the
30-word floor, yielding the too-short message) and the user receives a
summary message — not "No clear speech detected in the recording.",
contradicting the claim that the summary step is skipped and the
no-clear-speech message is shown. -/
theorem transcription_retry_exhaustion_summarized :
    (transcribeAudio (some 48) failApi).1 =
      "Failed to transcribe audio after multiple attempts" ∧
    (transcribeAudio (some 48) failApi).2.1 = 3 ∧
    (transcribeAudio (some 48) failApi).2.2 = [1000, 2000] ∧
    (handleLeaveCommand retryFailOutcomes (some "g") sampleReg).messages =
      ["📝 **Summary of the conversation:**\nText too short to summarize meaningfully",
        "Left voice channel."] ∧
    "No clear speech detected in the recording." ∉
      (handleLeaveCommand retryFailOutcomes (some "g") sampleReg).messages :=
  ⟨rfl, rfl, rfl, rfl, by decide⟩
